import Mathlib

/-! LR-WPAN drivers: addressing and the distance sweep

A shallow embedding of the three simulation drivers of the repository

* `lr-wpan-data-filetrace/lr-wpan-data.cc`  (four nodes, short or extended addressing),
* `lr-wpan-track-2/lr-wpan-data.cc`         (eight nodes, short addressing),
* `lr-wpan-distance/lr-wpan-error-distance-plot.cc` (the distance sweep),

together with the properties of their addressing and of the sweep loop.

The ns-3 library (simulator, MAC, PHY, channel) is not part of the repository.
Whatever the drivers hand to it is recorded as data (the calls made, in order);
the one thing the drivers read back from it, the number of indication callbacks
fired by a `Simulator::Run`, is a parameter of the embedding.
-/

namespace LrWpan

/-! ## Addresses -/

/-- Value of one character of an address string read as a hexadecimal digit:
letters (compared in lower case) count from ten, everything else from the digit zero. -/
def hexDigit (c : Char) : Nat :=
  let low := c.toLower
  if 'a'.toNat ≤ low.toNat then low.toNat - 'a'.toNat + 10 else low.toNat - '0'.toNat

/-- Reads a colon-separated list of hexadecimal octets; `cur` is the octet being
read (eight bits wide), `acc` the octets already finished. -/
def parseOctetsAux : List Char → Nat → List Nat → List Nat
  | [], cur, acc => acc ++ [cur]
  | c :: cs, cur, acc =>
    if c = ':' then parseOctetsAux cs 0 (acc ++ [cur])
    else parseOctetsAux cs ((cur * 16 + hexDigit c) % 256) acc

/-- Octets denoted by an address string such as `"00:01"`. -/
def parseOctets (s : String) : List Nat :=
  parseOctetsAux s.data 0 []

/-- Modelled from the spec: the class `Mac16Address` belongs to the ns-3 library and is
not in the repository; the data model calls it a 16-bit short address.  The drivers
construct it from a string of two colon-separated hexadecimal octets, and the value
keeps those octets. -/
structure Mac16Address where
  octets : List Nat
  deriving DecidableEq, Repr

/-- Modelled from the spec: the class `Mac64Address` belongs to the ns-3 library and is
not in the repository; the data model calls it a 64-bit extended address, built by the
drivers from a string of eight colon-separated hexadecimal octets. -/
structure Mac64Address where
  octets : List Nat
  deriving DecidableEq, Repr

/-- The constructor `Mac16Address(const char*)`. -/
def Mac16Address.ofString (s : String) : Mac16Address :=
  ⟨parseOctets s⟩

/-- The constructor `Mac64Address(const char*)`. -/
def Mac64Address.ofString (s : String) : Mac64Address :=
  ⟨parseOctets s⟩

/-- The C++ `std::to_string` on an unsigned value: its decimal digits. -/
def to_string (n : Nat) : String :=
  Nat.repr n

/-- The string `"00:0" + std::to_string(i + 1)` of the set-up loops. -/
def shortAddrString (i : Nat) : String :=
  "00:0" ++ to_string (i + 1)

/-- The string `"00:00:00:00:00:00:00:0" + std::to_string(i + 1)` of the set-up loop. -/
def extAddrString (i : Nat) : String :=
  "00:00:00:00:00:00:00:0" ++ to_string (i + 1)

/-- An address of either kind, as a device holds it. -/
inductive Address where
  | short (a : Mac16Address)
  | ext (a : Mac64Address)
  deriving DecidableEq, Repr

/-- The two addressing modes the drivers use. -/
inductive AddressMode where
  | SHORT_ADDR
  | EXT_ADDR
  deriving DecidableEq, Repr

/-- The fields of `McpsDataRequestParams` the drivers write.  An address field is
`none` until the driver stores an address in it. -/
structure McpsDataRequestParams where
  m_srcAddrMode : AddressMode := AddressMode.SHORT_ADDR
  m_dstAddrMode : AddressMode := AddressMode.SHORT_ADDR
  m_dstPanId : Nat := 0
  m_dstAddr : Option Mac16Address := none
  m_dstExtAddr : Option Mac64Address := none
  m_msduHandle : Nat := 0
  m_txOptions : Nat := 0
  deriving DecidableEq, Repr

/-- The constant `TX_OPTION_ACK` of the ns-3 MAC. -/
def TX_OPTION_ACK : Nat := 1

/-! ## The two data drivers (`lr-wpan-data.cc`) -/

/-- One call that gives a device its address: `SetAddress` on the device or
`SetExtendedAddress` on its MAC. -/
structure AddressAssignment where
  device : Nat
  address : Address
  deriving DecidableEq, Repr

/-- Address part of one pass of the set-up loop of `lr-wpan-data-filetrace`, for
node index `i`. -/
def filetraceAssign (extended : Bool) (i : Nat) : AddressAssignment :=
  if !extended then
    ⟨i, Address.short (Mac16Address.ofString (shortAddrString i))⟩
  else
    ⟨i, Address.ext (Mac64Address.ofString (extAddrString i))⟩

/-- All address assignments of `lr-wpan-data-filetrace`: the loop
`for (i = 0; i < nodes.GetN(); ++i)` over the four nodes. -/
def filetraceAssignments (extended : Bool) : List AddressAssignment :=
  (List.range 4).map (filetraceAssign extended)

/-- Address part of one pass of the set-up loop of `lr-wpan-track-2`. -/
def track2Assign (i : Nat) : AddressAssignment :=
  ⟨i, Address.short (Mac16Address.ofString (shortAddrString i))⟩

/-- All address assignments of `lr-wpan-track-2`: the loop over the eight nodes. -/
def track2Assignments : List AddressAssignment :=
  (List.range 8).map track2Assign

/-- The four `SetAddress` calls of the distance sweep, on dev0 to dev3. -/
def sweepAssignments : List AddressAssignment :=
  [⟨0, Address.short (Mac16Address.ofString "00:01")⟩,
   ⟨1, Address.short (Mac16Address.ofString "00:02")⟩,
   ⟨2, Address.short (Mac16Address.ofString "00:03")⟩,
   ⟨3, Address.short (Mac16Address.ofString "00:04")⟩]

/-- The address a list of assignments leaves on device `d`: the last one made. -/
def assignedAddress (log : List AddressAssignment) (d : Nat) : Option Address :=
  ((log.filter (fun a => a.device = d)).getLast?).map (fun a => a.address)

/-- One `Simulator::ScheduleWithContext(..., &LrWpanMac::McpsDataRequest, mac, params, packet)`
call of `lr-wpan-data-filetrace`: the node whose context is used, the time in seconds,
the device whose MAC is called, the parameters and the packet size. -/
structure DataRequestCall where
  context : Nat
  time : Nat
  device : Nat
  params : McpsDataRequestParams
  packetSize : Nat
  deriving DecidableEq, Repr

/-- Body of the first request loop: node `i` sends to node 0 at one second. -/
def filetraceRequest (extended : Bool) (i : Nat) : DataRequestCall :=
  let params : McpsDataRequestParams := {}
  let params := { params with m_dstPanId := 0 }
  let params := { params with
    m_srcAddrMode := if extended then AddressMode.EXT_ADDR else AddressMode.SHORT_ADDR }
  let params := { params with
    m_dstAddrMode := if extended then AddressMode.EXT_ADDR else AddressMode.SHORT_ADDR }
  let params :=
    if extended then
      { params with m_dstExtAddr := some (Mac64Address.ofString "00:00:00:00:00:00:00:01") }
    else
      { params with m_dstAddr := some (Mac16Address.ofString "00:01") }
  let params := { params with m_msduHandle := i }
  let params := { params with m_txOptions := TX_OPTION_ACK }
  ⟨i, 1, i, params, 50⟩

/-- Body of the second request loop: node 0 answers node `i` at two seconds. -/
def filetraceReply (extended : Bool) (i : Nat) : DataRequestCall :=
  let params : McpsDataRequestParams := {}
  let params := { params with m_dstPanId := 0 }
  let params := { params with
    m_srcAddrMode := if extended then AddressMode.EXT_ADDR else AddressMode.SHORT_ADDR }
  let params := { params with
    m_dstAddrMode := if extended then AddressMode.EXT_ADDR else AddressMode.SHORT_ADDR }
  let params :=
    if extended then
      { params with m_dstExtAddr := some (Mac64Address.ofString (extAddrString i)) }
    else
      { params with m_dstAddr := some (Mac16Address.ofString (shortAddrString i)) }
  let params := { params with m_msduHandle := i + 4 }
  let params := { params with m_txOptions := TX_OPTION_ACK }
  ⟨0, 2, 0, params, 60⟩

/-- The six data requests of `lr-wpan-data-filetrace` in the order they are scheduled:
both loops run `for (i = 1; i < nodes.GetN(); ++i)` over the four nodes. -/
def filetraceRequests (extended : Bool) : List DataRequestCall :=
  ((List.range 3).map (fun k => filetraceRequest extended (k + 1))) ++
  ((List.range 3).map (fun k => filetraceReply extended (k + 1)))

/-- The destination a request names: the address field its destination mode selects. -/
def destinationOf (p : McpsDataRequestParams) : Option Address :=
  match p.m_dstAddrMode with
  | AddressMode.SHORT_ADDR => p.m_dstAddr.map Address.short
  | AddressMode.EXT_ADDR => p.m_dstExtAddr.map Address.ext

/-- The mode that names the kind of an address. -/
def Address.mode : Address → AddressMode
  | Address.short _ => AddressMode.SHORT_ADDR
  | Address.ext _ => AddressMode.EXT_ADDR

/-- Modelled from the spec: the check of `dataRequest` is in the ns-3 MAC, not in the
repository.  The spec rejects a request with `InvalidAddressMode` when "a mode is
declared but the corresponding address field is absent": the destination mode selects
a destination field that was not supplied, or the source mode names a kind of address
the sending device does not hold (`src` is the address the sender was given, if any). -/
def invalidAddressMode (src : Option Address) (p : McpsDataRequestParams) : Bool :=
  (match p.m_dstAddrMode with
   | AddressMode.SHORT_ADDR => p.m_dstAddr.isNone
   | AddressMode.EXT_ADDR => p.m_dstExtAddr.isNone) ||
  (match src with
   | none => true
   | some a => a.mode != p.m_srcAddrMode)

/-! ## The distance sweep (`lr-wpan-error-distance-plot.cc`) -/

/-- The ns-3 `Vector` of three coordinates.  The sweep stores only values of type
`int` in it, which the conversion to `double` keeps exactly. -/
structure Vector3D where
  x : Int
  y : Int
  z : Int
  deriving DecidableEq, Repr

/-- The local variables of `main` that steer the sweep, with their initial values; all
are of type `int`.  Of these the command line can set `maxDistance` and `packetSize`;
`main` never assigns to the others.  Transmit power, channel number and receiver
sensitivity only reach the simulator. -/
structure SweepConfig where
  minDistance : Int := 1
  maxDistance : Int := 100
  increment : Int := 10
  maxPackets : Int := 1000
  packetSize : Int := 7

/-- One `Simulator::Schedule(delay, &LrWpanMac::McpsDataRequest, mac, params, p)` call:
the delay in seconds from the current virtual time, the device whose MAC is called
(0 to 3 for dev0 to dev3), a copy of the parameters as they are at the call, and the
size of the packet. -/
structure ScheduledRequest where
  delay : ℚ
  device : Nat
  params : McpsDataRequestParams
  packetSize : Int
  deriving DecidableEq

/-- What a `Simulator::Run` call finds: the positions of the four devices, the
requests waiting in the event queue, and the value of the receive counter. -/
structure RunRecord where
  mob0 : Vector3D
  mob1 : Vector3D
  mob2 : Vector3D
  mob3 : Vector3D
  queue : List ScheduledRequest
  g_packetsReceived : Nat

/-- The simulator library as the sweep sees it: for the `k`-th call of
`Simulator::Run` (counted from zero) and the world it finds, the number of times the
data-indication callback is invoked before the event queue is empty. -/
structure SimulatorModel where
  indications : Nat → RunRecord → Nat

/-- The program state of the sweep: the global counter, the four mobility models,
the reused parameter object, the pending events, the dataset of the plot, the lines
written to standard output (distance and counter), and the record of every
`Simulator::Run` call made so far. -/
structure SweepState where
  g_packetsReceived : Nat
  mob0 : Vector3D
  mob1 : Vector3D
  mob2 : Vector3D
  mob3 : Vector3D
  params : McpsDataRequestParams
  queue : List ScheduledRequest
  psrdataset : List (Int × Option ℚ)
  cout : List (Int × Nat)
  runs : List RunRecord

/-- The callback `LrWpanErrorDistanceCallback`: `g_packetsReceived++` on a `uint32_t`. -/
def LrWpanErrorDistanceCallback (g_packetsReceived : Nat) : Nat :=
  (g_packetsReceived + 1) % 2 ^ 32

/-- The time `Seconds(i * 0.001)`, in seconds, as an exact fraction. -/
def Seconds (i : Nat) : ℚ :=
  (i : ℚ) * (1 / 1000)

/-- Division of two `double` values as the sweep uses it, on exact fractions: a zero
divisor gives no number (`none`, the NaN or infinity of the machine), any other divisor
the quotient. -/
def divDouble (num den : ℚ) : Option ℚ :=
  if den = 0 then none else some (num / den)

/-- The value `g_packetsReceived / (2.0 * maxPackets)` added to the dataset. -/
def psr (g_packetsReceived : Nat) (maxPackets : Int) : Option ℚ :=
  divDouble (g_packetsReceived : ℚ) (2 * (maxPackets : ℚ))

/-- The state after lines 115 to 126 of `main`: the parameter object is filled in and
the devices are placed for the first distance. -/
def initState (cfg : SweepConfig) : SweepState :=
  { g_packetsReceived := 0
    mob0 := ⟨0, 0, 0⟩
    mob1 := ⟨cfg.minDistance, 0, 0⟩
    mob2 := ⟨0, 10, 0⟩
    mob3 := ⟨cfg.minDistance, 10, 0⟩
    params :=
      { m_srcAddrMode := AddressMode.SHORT_ADDR
        m_dstAddrMode := AddressMode.SHORT_ADDR
        m_dstPanId := 0
        m_msduHandle := 0
        m_txOptions := 0 }
    queue := []
    psrdataset := []
    cout := []
    runs := [] }

/-- Body of the inner loop for trial index `i`: the destination is set to `00:02` and
a request is scheduled on dev0, then the destination is set to `00:04` and a request
is scheduled on dev2, both with the delay `Seconds(i * 0.001)` and the same packet. -/
def scheduleTrial (cfg : SweepConfig) (st : SweepState) (i : Nat) : SweepState :=
  let p := cfg.packetSize
  let st := { st with params := { st.params with m_dstAddr := some (Mac16Address.ofString "00:02") } }
  let st := { st with queue := st.queue ++ [ScheduledRequest.mk (Seconds i) 0 st.params p] }
  let st := { st with params := { st.params with m_dstAddr := some (Mac16Address.ofString "00:04") } }
  { st with queue := st.queue ++ [ScheduledRequest.mk (Seconds i) 2 st.params p] }

/-- The inner loop `for (int i = 0; i < maxPackets; i++)`. -/
def scheduleTrials (cfg : SweepConfig) (st : SweepState) : SweepState :=
  (List.range cfg.maxPackets.toNat).foldl (scheduleTrial cfg) st

/-- The call `Simulator::Run()`: the simulator works through the queue until it is
empty and calls the indication callback as often as the model says. -/
def Simulator.Run (sim : SimulatorModel) (st : SweepState) : SweepState :=
  let found : RunRecord :=
    { mob0 := st.mob0, mob1 := st.mob1, mob2 := st.mob2, mob3 := st.mob3
      queue := st.queue, g_packetsReceived := st.g_packetsReceived }
  let n := sim.indications st.runs.length found
  { st with
    g_packetsReceived := LrWpanErrorDistanceCallback^[n] st.g_packetsReceived
    queue := []
    runs := st.runs ++ [found] }

/-- Body of the outer loop for the distance `j`. -/
def sweepBody (cfg : SweepConfig) (sim : SimulatorModel) (j : Int) (st : SweepState) :
    SweepState :=
  let st := scheduleTrials cfg st
  let st := Simulator.Run sim st
  let st := { st with cout := st.cout ++ [(j, st.g_packetsReceived)] }
  let st := { st with psrdataset := st.psrdataset ++ [(j, psr st.g_packetsReceived cfg.maxPackets)] }
  let st := { st with g_packetsReceived := 0 }
  let st := { st with mob1 := ⟨j, 0, 0⟩ }
  { st with mob3 := ⟨j, 10, 0⟩ }

/-- The least value of the type `int` (32 bits). -/
def INT_MIN : Int := -2147483648

/-- The greatest value of the type `int` (32 bits). -/
def INT_MAX : Int := 2147483647

/-- The value an `int` holds after an arithmetic result `x`: `x` itself when it is a
value of `int`, and otherwise the two's-complement wrap of it modulo 2^32 (C++ leaves
that case undefined; the wrap is what the usual targets compute). -/
def wrapInt32 (x : Int) : Int :=
  (x + 2147483648) % 4294967296 - 2147483648

/-- Where the outer loop stands when it is left or when the bound on the number of
passes is used up: `finished` tells whether the test `j <= maxDistance` has failed,
`state` is the program state reached. -/
structure LoopResult where
  finished : Bool
  state : SweepState

/-- The outer loop `for (int j = minDistance; j <= maxDistance; j += increment)` from
the point where `j` is tested; `j += increment` is 32-bit arithmetic.  `fuel` bounds
the number of passes; when it is used up with the test still true the result is
marked as not finished. -/
def sweepLoop (cfg : SweepConfig) (sim : SimulatorModel) : Nat → Int → SweepState →
    LoopResult
  | 0, j, st => if j ≤ cfg.maxDistance then ⟨false, st⟩ else ⟨true, st⟩
  | fuel + 1, j, st =>
    if j ≤ cfg.maxDistance then
      sweepLoop cfg sim fuel (wrapInt32 (j + cfg.increment)) (sweepBody cfg sim j st)
    else ⟨true, st⟩

/-- The function `main` of `lr-wpan-error-distance-plot.cc` from line 115 to the end of
the outer loop: the parameter object and the initial placement, then the loop. -/
def main (cfg : SweepConfig) (sim : SimulatorModel) (fuel : Nat) : LoopResult :=
  sweepLoop cfg sim fuel cfg.minDistance (initState cfg)

/-- The number of samples the spec expects: `floor((maxDistance - minDistance) /
increment) + 1` when `maxDistance >= minDistance`, none otherwise. -/
def expectedSamples (cfg : SweepConfig) : Nat :=
  if cfg.minDistance ≤ cfg.maxDistance then
    ((cfg.maxDistance - cfg.minDistance) / cfg.increment).toNat + 1
  else 0

/-- The distance the spec expects for pass `k`: `minDistance + k * increment`. -/
def distanceAt (cfg : SweepConfig) (k : Nat) : Int :=
  cfg.minDistance + (k : Int) * cfg.increment

/-- No integer overflow of `j`: every value the spec expects `j` to take, from
`minDistance` up to the first one above `maxDistance`, is a value of `int`. -/
def noOverflow (cfg : SweepConfig) : Prop :=
  ∀ k, k ≤ expectedSamples cfg → INT_MIN ≤ distanceAt cfg k ∧ distanceAt cfg k ≤ INT_MAX

instance (cfg : SweepConfig) : Decidable (noOverflow cfg) := by
  unfold noOverflow
  infer_instance

/-- The value of `j` in pass `k` of the outer loop, in 32-bit arithmetic. -/
def jAt (cfg : SweepConfig) : Nat → Int
  | 0 => cfg.minDistance
  | k + 1 => wrapInt32 (jAt cfg k + cfg.increment)

/-- Modelled from the spec: the scheduler is in the ns-3 library, not in the
repository.  Scheduling "fails with `CausalityViolation` if `time < now()` at the
moment of scheduling". -/
def causalityViolation (now time : ℚ) : Bool :=
  decide (time < now)

/-- A simulator in which every request is received: one indication per queued request. -/
def losslessSim : SimulatorModel :=
  ⟨fun _ found => found.queue.length⟩

/-- A small sweep used to exercise the statements: distances 1, 11 and 21 with two
trials each. -/
def smallConfig : SweepConfig :=
  { minDistance := 1, maxDistance := 21, increment := 10, maxPackets := 2 }

/-- The values `main` starts from with the greatest `int` as `--maxDistance`. -/
def overflowConfig : SweepConfig :=
  { maxDistance := 2147483647 }

/-! ## Closed forms used in the statements -/

/-- The parameter object with a given short destination and every other field as
`main` sets it before the loop. -/
def sweepParams (dst : Option Mac16Address) : McpsDataRequestParams :=
  { m_srcAddrMode := AddressMode.SHORT_ADDR
    m_dstAddrMode := AddressMode.SHORT_ADDR
    m_dstPanId := 0
    m_dstAddr := dst
    m_msduHandle := 0
    m_txOptions := 0 }

/-- The two requests of trial `i`: on dev0 to `00:02` and on dev2 to `00:04`, both
delayed by `i` milliseconds. -/
def trialRequests (cfg : SweepConfig) (i : Nat) : List ScheduledRequest :=
  [ScheduledRequest.mk (Seconds i) 0 (sweepParams (some (Mac16Address.ofString "00:02")))
      cfg.packetSize,
   ScheduledRequest.mk (Seconds i) 2 (sweepParams (some (Mac16Address.ofString "00:04")))
      cfg.packetSize]

/-- The requests of all trials of one distance, in the order they are scheduled. -/
def trialQueue (cfg : SweepConfig) : List ScheduledRequest :=
  (List.range cfg.maxPackets.toNat).flatMap (trialRequests cfg)

/-- The x coordinate of the receivers while pass `k` of the outer loop runs. -/
def receiverX (cfg : SweepConfig) : Nat → Int
  | 0 => cfg.minDistance
  | k + 1 => jAt cfg k

/-- What the `Simulator::Run` of pass `k` finds. -/
def recordAt (cfg : SweepConfig) (k : Nat) : RunRecord :=
  { mob0 := ⟨0, 0, 0⟩
    mob1 := ⟨receiverX cfg k, 0, 0⟩
    mob2 := ⟨0, 10, 0⟩
    mob3 := ⟨receiverX cfg k, 10, 0⟩
    queue := trialQueue cfg
    g_packetsReceived := 0 }

/-- The counter after the `Simulator::Run` of pass `k`. -/
def receivedAt (cfg : SweepConfig) (sim : SimulatorModel) (k : Nat) : Nat :=
  LrWpanErrorDistanceCallback^[sim.indications k (recordAt cfg k)] 0

/-- The parameter object after `k` passes: untouched while no trial has run. -/
def paramsAfter (cfg : SweepConfig) (k : Nat) : McpsDataRequestParams :=
  if k = 0 ∨ cfg.maxPackets.toNat = 0 then sweepParams none
  else sweepParams (some (Mac16Address.ofString "00:04"))

/-- The program state after `k` passes of the outer loop. -/
def stateAfter (cfg : SweepConfig) (sim : SimulatorModel) (k : Nat) : SweepState :=
  { g_packetsReceived := 0
    mob0 := ⟨0, 0, 0⟩
    mob1 := ⟨receiverX cfg k, 0, 0⟩
    mob2 := ⟨0, 10, 0⟩
    mob3 := ⟨receiverX cfg k, 10, 0⟩
    params := paramsAfter cfg k
    queue := []
    psrdataset := (List.range k).map
      (fun i => (jAt cfg i, psr (receivedAt cfg sim i) cfg.maxPackets))
    cout := (List.range k).map (fun i => (jAt cfg i, receivedAt cfg sim i))
    runs := (List.range k).map (recordAt cfg) }

/-! ## The sweep loop in closed form -/

theorem callback_iterate (n : Nat) :
    LrWpanErrorDistanceCallback^[n] 0 = n % 2 ^ 32 := by
  induction n with
  | zero => rfl
  | succ n ih =>
    rw [Function.iterate_succ_apply', ih]
    unfold LrWpanErrorDistanceCallback
    omega

theorem callback_iterate_le (n : Nat) : LrWpanErrorDistanceCallback^[n] 0 ≤ n := by
  rw [callback_iterate]
  exact Nat.mod_le _ _

theorem scheduleTrial_eq (cfg : SweepConfig) (st : SweepState) (i : Nat)
    (dst : Option Mac16Address) (h : st.params = sweepParams dst) :
    scheduleTrial cfg st i =
      { st with
        params := sweepParams (some (Mac16Address.ofString "00:04"))
        queue := st.queue ++ trialRequests cfg i } := by
  cases st
  simp only at h
  subst h
  simp [scheduleTrial, trialRequests, sweepParams]

theorem foldl_scheduleTrial (cfg : SweepConfig) (n : Nat) (st : SweepState)
    (dst : Option Mac16Address) (h : st.params = sweepParams dst) :
    (List.range n).foldl (scheduleTrial cfg) st =
      { st with
        params := if n = 0 then sweepParams dst
                  else sweepParams (some (Mac16Address.ofString "00:04"))
        queue := st.queue ++ (List.range n).flatMap (trialRequests cfg) } := by
  induction n with
  | zero =>
    cases st
    simp only at h
    subst h
    simp
  | succ n ih =>
    rw [List.range_succ, List.foldl_append, ih]
    simp only [List.foldl_cons, List.foldl_nil]
    rw [scheduleTrial_eq cfg _ n (if n = 0 then dst else some (Mac16Address.ofString "00:04"))
      (by by_cases hn : n = 0 <;> simp [hn])]
    simp [List.flatMap_append]

theorem paramsAfter_eq (cfg : SweepConfig) (k : Nat) :
    ∃ dst, paramsAfter cfg k = sweepParams dst := by
  unfold paramsAfter
  split
  · exact ⟨_, rfl⟩
  · exact ⟨_, rfl⟩

theorem scheduleTrials_stateAfter (cfg : SweepConfig) (sim : SimulatorModel) (k : Nat) :
    scheduleTrials cfg (stateAfter cfg sim k) =
      { stateAfter cfg sim k with
        params := paramsAfter cfg (k + 1)
        queue := trialQueue cfg } := by
  obtain ⟨dst, hdst⟩ := paramsAfter_eq cfg k
  unfold scheduleTrials
  rw [foldl_scheduleTrial cfg _ (stateAfter cfg sim k) dst hdst]
  simp only [stateAfter, trialQueue, List.nil_append]
  congr 1
  by_cases hn : cfg.maxPackets.toNat = 0
  · simp only [hn, if_true]
    rw [← hdst]
    simp [paramsAfter, hn]
  · simp [paramsAfter, hn]

theorem sweepBody_stateAfter (cfg : SweepConfig) (sim : SimulatorModel) (k : Nat) :
    sweepBody cfg sim (jAt cfg k) (stateAfter cfg sim k) = stateAfter cfg sim (k + 1) := by
  unfold sweepBody
  rw [scheduleTrials_stateAfter]
  simp [Simulator.Run, stateAfter, List.range_succ, receivedAt, recordAt, receiverX]

theorem distanceAt_le_iff (cfg : SweepConfig) (h : 0 < cfg.increment) (k : Nat) :
    distanceAt cfg k ≤ cfg.maxDistance ↔ k < expectedSamples cfg := by
  unfold distanceAt expectedSamples
  have hk : (0 : Int) ≤ (k : Int) * cfg.increment :=
    mul_nonneg (Int.ofNat_nonneg k) (le_of_lt h)
  split
  · rename_i hle
    have hq : 0 ≤ (cfg.maxDistance - cfg.minDistance) / cfg.increment :=
      Int.ediv_nonneg (by omega) (le_of_lt h)
    rw [Nat.lt_succ_iff, Int.le_toNat hq, Int.le_ediv_iff_mul_le h]
    constructor <;> intro h1 <;> omega
  · constructor <;> intro h1 <;> omega

theorem wrapInt32_of_int (x : Int) (hlo : INT_MIN ≤ x) (hhi : x ≤ INT_MAX) :
    wrapInt32 x = x := by
  unfold INT_MIN at hlo
  unfold INT_MAX at hhi
  unfold wrapInt32
  omega

theorem wrapInt32_le (x : Int) : wrapInt32 x ≤ INT_MAX := by
  unfold wrapInt32 INT_MAX
  omega

theorem jAt_eq_distanceAt (cfg : SweepConfig) (hno : noOverflow cfg) :
    ∀ k, k ≤ expectedSamples cfg → jAt cfg k = distanceAt cfg k := by
  intro k
  induction k with
  | zero =>
    intro _
    simp [jAt, distanceAt]
  | succ k ih =>
    intro hk
    have hnext : distanceAt cfg k + cfg.increment = distanceAt cfg (k + 1) := by
      unfold distanceAt
      push_cast
      ring
    show wrapInt32 (jAt cfg k + cfg.increment) = _
    rw [ih (by omega), hnext]
    exact wrapInt32_of_int _ (hno (k + 1) hk).1 (hno (k + 1) hk).2

theorem sweepLoop_reaches (cfg : SweepConfig) (sim : SimulatorModel) (fuel : Nat) :
    ∀ k, ∃ m, (sweepLoop cfg sim fuel (jAt cfg k) (stateAfter cfg sim k)).state =
      stateAfter cfg sim m := by
  induction fuel with
  | zero =>
    intro k
    refine ⟨k, ?_⟩
    unfold sweepLoop
    split <;> rfl
  | succ fuel ih =>
    intro k
    by_cases hle : jAt cfg k ≤ cfg.maxDistance
    · obtain ⟨m, hm⟩ := ih (k + 1)
      refine ⟨m, ?_⟩
      simp only [sweepLoop, hle, if_true]
      rw [sweepBody_stateAfter]
      exact hm
    · refine ⟨k, ?_⟩
      simp only [sweepLoop, hle, if_false]

theorem main_reaches (cfg : SweepConfig) (sim : SimulatorModel) (fuel : Nat) :
    ∃ m, (main cfg sim fuel).state = stateAfter cfg sim m := by
  have h0 : initState cfg = stateAfter cfg sim 0 := by
    simp [initState, stateAfter, receiverX, paramsAfter, sweepParams]
  unfold main
  rw [h0]
  exact sweepLoop_reaches cfg sim fuel 0

theorem sweepLoop_stateAfter (cfg : SweepConfig) (sim : SimulatorModel)
    (h : 0 < cfg.increment) (hno : noOverflow cfg) (fuel : Nat) :
    ∀ k, k ≤ expectedSamples cfg → expectedSamples cfg ≤ k + fuel →
      sweepLoop cfg sim fuel (jAt cfg k) (stateAfter cfg sim k) =
        ⟨true, stateAfter cfg sim (expectedSamples cfg)⟩ := by
  induction fuel with
  | zero =>
    intro k hk hfuel
    have hkn : k = expectedSamples cfg := by omega
    have hnot : ¬ jAt cfg k ≤ cfg.maxDistance := by
      rw [jAt_eq_distanceAt cfg hno k hk, distanceAt_le_iff cfg h]
      omega
    simp only [sweepLoop, hnot, if_false]
    rw [hkn]
  | succ fuel ih =>
    intro k hk hfuel
    by_cases hle : jAt cfg k ≤ cfg.maxDistance
    · have hlt : k < expectedSamples cfg := by
        rw [jAt_eq_distanceAt cfg hno k hk] at hle
        exact (distanceAt_le_iff cfg h k).mp hle
      simp only [sweepLoop, hle, if_true]
      rw [sweepBody_stateAfter]
      exact ih (k + 1) hlt (by omega)
    · have hkn : k = expectedSamples cfg := by
        rw [jAt_eq_distanceAt cfg hno k hk, distanceAt_le_iff cfg h] at hle
        omega
      simp only [sweepLoop, hle, if_false]
      rw [hkn]

theorem main_eq_stateAfter (cfg : SweepConfig) (sim : SimulatorModel)
    (h : 0 < cfg.increment) (hno : noOverflow cfg) (fuel : Nat)
    (hfuel : expectedSamples cfg ≤ fuel) :
    main cfg sim fuel = ⟨true, stateAfter cfg sim (expectedSamples cfg)⟩ := by
  have h0 : initState cfg = stateAfter cfg sim 0 := by
    simp [initState, stateAfter, receiverX, paramsAfter, sweepParams]
  unfold main
  rw [h0]
  exact sweepLoop_stateAfter cfg sim h hno fuel 0 (Nat.zero_le _) (by omega)

theorem main_finishes (cfg : SweepConfig) (sim : SimulatorModel) (fuel : Nat)
    (h : 0 < cfg.increment) (hno : noOverflow cfg) (hfuel : expectedSamples cfg ≤ fuel) :
    (main cfg sim fuel).finished = true := by
  rw [main_eq_stateAfter cfg sim h hno fuel hfuel]

theorem sweepLoop_overflow_never_finishes (cfg : SweepConfig) (sim : SimulatorModel)
    (hmax : cfg.maxDistance = INT_MAX) (fuel : Nat) :
    ∀ (j : Int) (st : SweepState), j ≤ INT_MAX →
      (sweepLoop cfg sim fuel j st).finished = false := by
  induction fuel with
  | zero =>
    intro j st hj
    have hle : j ≤ cfg.maxDistance := by rw [hmax]; exact hj
    simp only [sweepLoop, hle, if_true]
  | succ fuel ih =>
    intro j st hj
    have hle : j ≤ cfg.maxDistance := by rw [hmax]; exact hj
    simp only [sweepLoop, hle, if_true]
    exact ih _ _ (wrapInt32_le _)

/-- With the greatest `int` as `--maxDistance` the addition `j += increment` overflows
and the outer loop is never left: no bound on the number of passes is enough. -/
theorem main_overflow_never_finishes (sim : SimulatorModel) (fuel : Nat) :
    (main overflowConfig sim fuel).finished = false :=
  sweepLoop_overflow_never_finishes overflowConfig sim rfl fuel _ _ (by decide)

theorem stateAfter_distances (cfg : SweepConfig) (sim : SimulatorModel)
    (hno : noOverflow cfg) :
    (stateAfter cfg sim (expectedSamples cfg)).psrdataset.map Prod.fst =
      (List.range (expectedSamples cfg)).map (distanceAt cfg) := by
  simp only [stateAfter, List.map_map]
  apply List.map_congr_left
  intro k hk
  rw [List.mem_range] at hk
  exact jAt_eq_distanceAt cfg hno k (le_of_lt hk)

theorem trialQueue_length (cfg : SweepConfig) (n : Nat) :
    ((List.range n).flatMap (trialRequests cfg)).length = 2 * n := by
  induction n with
  | zero => rfl
  | succ n ih =>
    rw [List.range_succ, List.flatMap_append, List.length_append, ih]
    simp [trialRequests]
    omega

theorem trialQueue_getElem (cfg : SweepConfig) (n i : Nat) (hi : i < n) :
    ((List.range n).flatMap (trialRequests cfg))[2 * i]? =
        some (ScheduledRequest.mk (Seconds i) 0
          (sweepParams (some (Mac16Address.ofString "00:02"))) cfg.packetSize) ∧
    ((List.range n).flatMap (trialRequests cfg))[2 * i + 1]? =
        some (ScheduledRequest.mk (Seconds i) 2
          (sweepParams (some (Mac16Address.ofString "00:04"))) cfg.packetSize) := by
  induction n with
  | zero => omega
  | succ n ih =>
    rw [List.range_succ, List.flatMap_append]
    by_cases hlt : i < n
    · have h1 := ih hlt
      have hlen := trialQueue_length cfg n
      rw [List.getElem?_append_left (by omega), List.getElem?_append_left (by omega)]
      exact h1
    · have hin : i = n := by omega
      subst hin
      have hlen := trialQueue_length cfg i
      rw [List.getElem?_append_right (by omega), List.getElem?_append_right (by omega)]
      have e1 : 2 * i - ((List.range i).flatMap (trialRequests cfg)).length = 0 := by omega
      have e2 : 2 * i + 1 - ((List.range i).flatMap (trialRequests cfg)).length = 1 := by omega
      rw [e1, e2]
      simp [trialRequests]

theorem mem_trialQueue (cfg : SweepConfig) (q : ScheduledRequest) (hq : q ∈ trialQueue cfg) :
    ∃ i : Nat, (i : Int) < cfg.maxPackets ∧ q ∈ trialRequests cfg i := by
  unfold trialQueue at hq
  rw [List.mem_flatMap] at hq
  obtain ⟨i, hi, hmem⟩ := hq
  rw [List.mem_range] at hi
  exact ⟨i, by omega, hmem⟩

theorem mem_runs_stateAfter (cfg : SweepConfig) (sim : SimulatorModel) (n : Nat) (r : RunRecord)
    (hr : r ∈ (stateAfter cfg sim n).runs) : ∃ k, k < n ∧ r = recordAt cfg k := by
  simp only [stateAfter, List.mem_map, List.mem_range] at hr
  obtain ⟨k, hk, rfl⟩ := hr
  exact ⟨k, hk, rfl⟩

theorem runs_getElem_stateAfter (cfg : SweepConfig) (sim : SimulatorModel) (n k : Nat)
    (r : RunRecord) (hr : (stateAfter cfg sim n).runs[k]? = some r) :
    k < n ∧ r = recordAt cfg k := by
  simp only [stateAfter, List.getElem?_map] at hr
  by_cases hk : k < n
  · rw [List.getElem?_range hk] at hr
    simp only [Option.map_some', Option.some.injEq] at hr
    exact ⟨hk, hr.symm⟩
  · rw [List.getElem?_eq_none (by simpa using hk)] at hr
    simp at hr

theorem distanceAt_strictMono (cfg : SweepConfig) (h : 0 < cfg.increment) (a b : Nat)
    (hab : a < b) : distanceAt cfg a < distanceAt cfg b := by
  unfold distanceAt
  have : (a : Int) * cfg.increment < (b : Int) * cfg.increment :=
    mul_lt_mul_of_pos_right (by exact_mod_cast hab) h
  omega

theorem foldl_scheduleTrial_counter (cfg : SweepConfig) (l : List Nat) :
    ∀ st : SweepState,
      (l.foldl (scheduleTrial cfg) st).g_packetsReceived = st.g_packetsReceived := by
  induction l with
  | nil => intro st; rfl
  | cons i l ih =>
    intro st
    rw [List.foldl_cons, ih]
    rfl

/-! ## Addressing of the drivers -/

/-- C8: the addresses a driver hands out are pairwise distinct, as strings and as
the octets read from them: the short and the extended addresses of the four nodes of
`lr-wpan-data-filetrace`, the short addresses of the eight nodes of `lr-wpan-track-2`,
and the four literal addresses `00:01` to `00:04` of the distance sweep; and every
device of a driver receives its address in exactly one call. -/
theorem C8_addresses_pairwise_distinct :
    (∀ i < 4, ∀ j < 4, i ≠ j →
      shortAddrString i ≠ shortAddrString j ∧
      Mac16Address.ofString (shortAddrString i) ≠ Mac16Address.ofString (shortAddrString j) ∧
      extAddrString i ≠ extAddrString j ∧
      Mac64Address.ofString (extAddrString i) ≠ Mac64Address.ofString (extAddrString j)) ∧
    (∀ i < 8, ∀ j < 8, i ≠ j →
      shortAddrString i ≠ shortAddrString j ∧
      Mac16Address.ofString (shortAddrString i) ≠ Mac16Address.ofString (shortAddrString j)) ∧
    (∀ extended : Bool,
      ((filetraceAssignments extended).map (fun a => a.address)).Nodup ∧
      ∀ d < 4, ((filetraceAssignments extended).filter (fun a => a.device = d)).length = 1) ∧
    ((track2Assignments.map (fun a => a.address)).Nodup ∧
      ∀ d < 8, (track2Assignments.filter (fun a => a.device = d)).length = 1) ∧
    ((sweepAssignments.map (fun a => a.address)).Nodup ∧
      (∀ d < 4, (sweepAssignments.filter (fun a => a.device = d)).length = 1) ∧
      sweepAssignments.map (fun a => a.address) =
        [Address.short ⟨[0, 1]⟩, Address.short ⟨[0, 2]⟩, Address.short ⟨[0, 3]⟩,
         Address.short ⟨[0, 4]⟩]) := by
  refine ⟨by decide, by decide, by decide, by decide, by decide⟩

/-- C9: in `lr-wpan-data-filetrace`, with and without `extended`, each of the six
requests declares the destination mode of the one destination field it sets (extended
mode with the extended field, short mode with the short field, the other field left
unset), its source mode names the kind of address the sending device was given, and
so the `InvalidAddressMode` condition does not hold for it. -/
theorem C9_modes_match_addresses (extended : Bool) (c : DataRequestCall)
    (hc : c ∈ filetraceRequests extended) :
    (filetraceRequests extended).length = 6 ∧
    (c.params.m_dstAddrMode = AddressMode.EXT_ADDR ↔
      (c.params.m_dstExtAddr.isSome = true ∧ c.params.m_dstAddr.isNone = true)) ∧
    (c.params.m_dstAddrMode = AddressMode.SHORT_ADDR ↔
      (c.params.m_dstAddr.isSome = true ∧ c.params.m_dstExtAddr.isNone = true)) ∧
    (assignedAddress (filetraceAssignments extended) c.device).map Address.mode =
      some c.params.m_srcAddrMode ∧
    invalidAddressMode (assignedAddress (filetraceAssignments extended) c.device) c.params =
      false := by
  revert c extended
  decide

/-- C9 at one input: the first request of the extended run. -/
theorem C9_modes_match_addresses_witness :
    filetraceRequest true 1 ∈ filetraceRequests true ∧
    (filetraceRequest true 1).params.m_dstAddrMode = AddressMode.EXT_ADDR ∧
    invalidAddressMode (assignedAddress (filetraceAssignments true) 1)
      (filetraceRequest true 1).params = false :=
  ⟨by decide,
   ((C9_modes_match_addresses true (filetraceRequest true 1) (by decide)).2.1).mpr
     ⟨by decide, by decide⟩,
   (C9_modes_match_addresses true (filetraceRequest true 1) (by decide)).2.2.2.2⟩

/-- C10: every request is addressed to a device of the run other than its sender.
In `lr-wpan-data-filetrace`, with and without `extended`, the request of node `i`
(1 to 3) is issued on device `i` and names the address given to device 0, and reply
`i` is issued on device 0 and names the address given to device `i`, which differs from
that of device 0.  In the distance sweep, whatever the number of passes made, every
request found by a `Simulator::Run` is either issued on dev0 and names `00:02`, the
address of dev1, or issued on dev2 and names `00:04`, the address of dev3, although
both are copies of the one parameter object; and each trial index below `maxPackets`
has both of them in the queue.  With a positive increment, no overflow of `j` and
enough fuel the sweep ends after one run per expected distance. -/
theorem C10_requests_reach_their_peer (cfg : SweepConfig) (sim : SimulatorModel)
    (fuel : Nat) :
    (∀ extended : Bool, ∀ i < 4, 1 ≤ i →
      (assignedAddress (filetraceAssignments extended) 0).isSome = true ∧
      (assignedAddress (filetraceAssignments extended) i).isSome = true ∧
      assignedAddress (filetraceAssignments extended) 0 ≠
        assignedAddress (filetraceAssignments extended) i ∧
      ((filetraceRequests extended)[i - 1]?).map (fun c => (c.device, destinationOf c.params)) =
        some (i, assignedAddress (filetraceAssignments extended) 0) ∧
      ((filetraceRequests extended)[i + 2]?).map (fun c => (c.device, destinationOf c.params)) =
        some (0, assignedAddress (filetraceAssignments extended) i)) ∧
    assignedAddress sweepAssignments 1 = some (Address.short (Mac16Address.ofString "00:02")) ∧
    assignedAddress sweepAssignments 3 = some (Address.short (Mac16Address.ofString "00:04")) ∧
    assignedAddress sweepAssignments 1 ≠ assignedAddress sweepAssignments 0 ∧
    assignedAddress sweepAssignments 3 ≠ assignedAddress sweepAssignments 2 ∧
    (∀ r ∈ (main cfg sim fuel).state.runs,
      (∀ q ∈ r.queue,
        (q.device = 0 ∧ destinationOf q.params = assignedAddress sweepAssignments 1) ∨
        (q.device = 2 ∧ destinationOf q.params = assignedAddress sweepAssignments 3)) ∧
      (∀ i : Nat, (i : Int) < cfg.maxPackets →
        ∃ a b : ScheduledRequest,
          r.queue[2 * i]? = some a ∧ r.queue[2 * i + 1]? = some b ∧
          a.device = 0 ∧ destinationOf a.params = assignedAddress sweepAssignments 1 ∧
          b.device = 2 ∧ destinationOf b.params = assignedAddress sweepAssignments 3)) ∧
    (0 < cfg.increment → noOverflow cfg → expectedSamples cfg ≤ fuel →
      (main cfg sim fuel).finished = true ∧
      (main cfg sim fuel).state.runs.length = expectedSamples cfg) := by
  have h1 : assignedAddress sweepAssignments 1 =
      some (Address.short (Mac16Address.ofString "00:02")) := by decide
  have h3 : assignedAddress sweepAssignments 3 =
      some (Address.short (Mac16Address.ofString "00:04")) := by decide
  refine ⟨?_, h1, h3, by decide, by decide, ?_, ?_⟩
  · intro extended i hi hi1
    revert extended
    interval_cases i <;> decide
  · obtain ⟨m, hm⟩ := main_reaches cfg sim fuel
    rw [hm]
    intro r hr
    obtain ⟨k, _, rfl⟩ := mem_runs_stateAfter cfg sim _ r hr
    rw [h1, h3]
    constructor
    · intro q hq
      obtain ⟨i, _, hmem⟩ := mem_trialQueue cfg q hq
      simp only [trialRequests, List.mem_cons, List.mem_singleton, List.not_mem_nil,
        or_false] at hmem
      rcases hmem with rfl | rfl
      · left
        exact ⟨rfl, rfl⟩
      · right
        exact ⟨rfl, rfl⟩
    · intro i hi
      obtain ⟨ha, hb⟩ := trialQueue_getElem cfg cfg.maxPackets.toNat i (by omega)
      exact ⟨_, _, ha, hb, rfl, rfl, rfl, rfl⟩
  · intro hinc hno hfuel
    rw [main_eq_stateAfter cfg sim hinc hno fuel hfuel]
    exact ⟨rfl, by simp [stateAfter]⟩

/-- C10 at one input: the small sweep on the lossless simulator ends after three runs,
each with the requests of two trials. -/
theorem C10_requests_reach_their_peer_witness :
    0 < smallConfig.increment ∧ noOverflow smallConfig ∧ expectedSamples smallConfig ≤ 3 ∧
    (main smallConfig losslessSim 3).finished = true ∧
    (main smallConfig losslessSim 3).state.runs.length = 3 :=
  ⟨by decide, by decide, by decide,
   ((C10_requests_reach_their_peer smallConfig losslessSim 3).2.2.2.2.2.2
      (by decide) (by decide) (by decide)).1,
   ((C10_requests_reach_their_peer smallConfig losslessSim 3).2.2.2.2.2.2
      (by decide) (by decide) (by decide)).2.trans (by decide)⟩

/-! ## The distance sweep -/

/-- C1 (the code departs from the claim): with the values `main` starts from, the
sweep ends and reports the distances 1, 11, 21, ..., 91, but the receivers stand at
x = 1 during the first two passes and one step behind the reported distance in every
later pass: the sample reported at distance 11 is measured with dev1 at (1,0,0) and
dev3 at (1,10,0).  Senders stay at (0,0,0) and (0,10,0). -/
theorem C1_receivers_one_step_behind (sim : SimulatorModel) :
    ∃ st, main {} sim 10 = ⟨true, st⟩ ∧
      st.psrdataset.map Prod.fst = [1, 11, 21, 31, 41, 51, 61, 71, 81, 91] ∧
      st.runs.map (fun r => r.mob1) =
        [⟨1, 0, 0⟩, ⟨1, 0, 0⟩, ⟨11, 0, 0⟩, ⟨21, 0, 0⟩, ⟨31, 0, 0⟩, ⟨41, 0, 0⟩, ⟨51, 0, 0⟩,
         ⟨61, 0, 0⟩, ⟨71, 0, 0⟩, ⟨81, 0, 0⟩] ∧
      st.runs.map (fun r => r.mob3) =
        [⟨1, 10, 0⟩, ⟨1, 10, 0⟩, ⟨11, 10, 0⟩, ⟨21, 10, 0⟩, ⟨31, 10, 0⟩, ⟨41, 10, 0⟩,
         ⟨51, 10, 0⟩, ⟨61, 10, 0⟩, ⟨71, 10, 0⟩, ⟨81, 10, 0⟩] ∧
      (∀ r ∈ st.runs, r.mob0 = ⟨0, 0, 0⟩ ∧ r.mob2 = ⟨0, 10, 0⟩) := by
  have hn : expectedSamples {} = 10 := by decide
  refine ⟨stateAfter {} sim (expectedSamples {}),
    main_eq_stateAfter {} sim (by decide) (by decide) 10 (by rw [hn]), ?_⟩
  rw [hn]
  have hd : (stateAfter {} sim 10).psrdataset.map Prod.fst =
      (List.range 10).map (jAt {}) := by
    simp [stateAfter, List.map_map, Function.comp_def]
  have h1 : (stateAfter {} sim 10).runs.map (fun r => r.mob1) =
      (List.range 10).map (fun k => (recordAt {} k).mob1) := by
    simp [stateAfter, List.map_map, Function.comp_def]
  have h3 : (stateAfter {} sim 10).runs.map (fun r => r.mob3) =
      (List.range 10).map (fun k => (recordAt {} k).mob3) := by
    simp [stateAfter, List.map_map, Function.comp_def]
  refine ⟨?_, ?_, ?_, ?_⟩
  · rw [hd]
    decide
  · rw [h1]
    decide
  · rw [h3]
    decide
  · intro r hr
    obtain ⟨k, _, rfl⟩ := mem_runs_stateAfter _ sim _ r hr
    exact ⟨rfl, rfl⟩

/-- C2: for a positive increment, no integer overflow of `j` and enough fuel the sweep
ends, and its dataset holds the distances `minDistance + k * increment` for
`k = 0, 1, ...` below the count `floor((maxDistance - minDistance) / increment) + 1`
(zero when `maxDistance < minDistance`), in this order; these are exactly the values
of that form that are at most `maxDistance`, they increase strictly (so none occurs
twice), there is one `Simulator::Run` per sample, and each run finds the requests of
exactly `maxPackets` trials (of none when `maxPackets` is negative). -/
theorem C2_one_sample_per_distance (cfg : SweepConfig) (sim : SimulatorModel) (fuel : Nat)
    (hinc : 0 < cfg.increment) (hno : noOverflow cfg) (hfuel : expectedSamples cfg ≤ fuel) :
    ∃ st, main cfg sim fuel = ⟨true, st⟩ ∧
      st.psrdataset.map Prod.fst = (List.range (expectedSamples cfg)).map (distanceAt cfg) ∧
      st.psrdataset.length = expectedSamples cfg ∧
      (∀ d : Int, d ∈ st.psrdataset.map Prod.fst ↔
        ∃ k : Nat, d = cfg.minDistance + (k : Int) * cfg.increment ∧ d ≤ cfg.maxDistance) ∧
      (st.psrdataset.map Prod.fst).Pairwise (fun a b => a < b) ∧
      st.runs.length = expectedSamples cfg ∧
      ∀ r ∈ st.runs, ∃ trials : Nat, (trials : Int) = max cfg.maxPackets 0 ∧
        r.queue = (List.range trials).flatMap (trialRequests cfg) := by
  refine ⟨stateAfter cfg sim (expectedSamples cfg),
    main_eq_stateAfter cfg sim hinc hno fuel hfuel, ?_⟩
  have hmap := stateAfter_distances cfg sim hno
  refine ⟨hmap, by simp [stateAfter], ?_, ?_, by simp [stateAfter], ?_⟩
  · intro d
    rw [hmap, List.mem_map]
    constructor
    · rintro ⟨k, hk, rfl⟩
      rw [List.mem_range] at hk
      exact ⟨k, rfl, (distanceAt_le_iff cfg hinc k).mpr hk⟩
    · rintro ⟨k, rfl, hle⟩
      exact ⟨k, List.mem_range.mpr ((distanceAt_le_iff cfg hinc k).mp hle), rfl⟩
  · rw [hmap, List.pairwise_map]
    exact (List.pairwise_lt_range _).imp (fun hab => distanceAt_strictMono cfg hinc _ _ hab)
  · intro r hr
    obtain ⟨k, _, rfl⟩ := mem_runs_stateAfter cfg sim _ r hr
    exact ⟨cfg.maxPackets.toNat, Int.toNat_eq_max _, rfl⟩

/-- C2 at one input: the small sweep reports the distances 1, 11 and 21. -/
theorem C2_one_sample_per_distance_witness :
    0 < smallConfig.increment ∧ noOverflow smallConfig ∧ expectedSamples smallConfig ≤ 3 ∧
    ∃ st, main smallConfig losslessSim 3 = ⟨true, st⟩ ∧
      st.psrdataset.map Prod.fst = [1, 11, 21] ∧ st.runs.length = 3 := by
  refine ⟨by decide, by decide, by decide, ?_⟩
  obtain ⟨st, hst, hd, _, _, _, hr, _⟩ :=
    C2_one_sample_per_distance smallConfig losslessSim 3 (by decide) (by decide) (by decide)
  exact ⟨st, hst, by rw [hd]; decide, by rw [hr]; decide⟩

/-- C3: with `maxPackets` not negative, for every pass the sweep makes the value
added to the dataset is received / attempted: attempted is the number of requests the
pass put in the queue, which equals the divisor `2 * maxPackets` of the code, and
received is the counter after the callbacks of that pass, counted up from zero (the
number of callbacks itself as long as it fits the 32-bit counter).  For a positive
`maxPackets` the value is that quotient; for `maxPackets = 0` both are zero and the
value is no number.  With a positive increment, no overflow of `j` and enough fuel the
sweep ends after one run per expected distance. -/
theorem C3_rate_is_received_over_attempted (cfg : SweepConfig) (sim : SimulatorModel)
    (fuel : Nat) (hmp : 0 ≤ cfg.maxPackets) :
    (main cfg sim fuel).state.runs.length = (main cfg sim fuel).state.psrdataset.length ∧
    (∀ (k : Nat) (r : RunRecord) (s : Int × Option ℚ),
      (main cfg sim fuel).state.runs[k]? = some r →
      (main cfg sim fuel).state.psrdataset[k]? = some s →
      2 * cfg.maxPackets = (r.queue.length : Int) ∧
      r.g_packetsReceived = 0 ∧
      (0 < cfg.maxPackets →
        s.2 = some
          (((LrWpanErrorDistanceCallback^[sim.indications k r] r.g_packetsReceived : Nat) : ℚ) /
            (r.queue.length : ℚ))) ∧
      (cfg.maxPackets = 0 → s.2 = none) ∧
      (sim.indications k r < 2 ^ 32 →
        LrWpanErrorDistanceCallback^[sim.indications k r] r.g_packetsReceived =
          sim.indications k r)) ∧
    (0 < cfg.increment → noOverflow cfg → expectedSamples cfg ≤ fuel →
      (main cfg sim fuel).finished = true ∧
      (main cfg sim fuel).state.runs.length = expectedSamples cfg) := by
  refine ⟨?_, ?_, ?_⟩
  · obtain ⟨m, hm⟩ := main_reaches cfg sim fuel
    rw [hm]
    simp [stateAfter]
  · obtain ⟨m, hm⟩ := main_reaches cfg sim fuel
    rw [hm]
    intro k r s hr hs
    obtain ⟨hk, rfl⟩ := runs_getElem_stateAfter cfg sim _ k r hr
    simp only [stateAfter, List.getElem?_map, List.getElem?_range hk, Option.map_some',
      Option.some.injEq] at hs
    subst hs
    have hlen : (recordAt cfg k).queue.length = 2 * cfg.maxPackets.toNat :=
      trialQueue_length cfg _
    have hcast : ((cfg.maxPackets.toNat : Nat) : Int) = cfg.maxPackets :=
      Int.toNat_of_nonneg hmp
    have hq : (2 : ℚ) * (cfg.maxPackets : ℚ) = (((recordAt cfg k).queue.length : Nat) : ℚ) := by
      rw [hlen, ← hcast]
      push_cast
      rfl
    refine ⟨by rw [hlen]; push_cast; omega, rfl, ?_, ?_, ?_⟩
    · intro hpos
      have hne : (2 : ℚ) * (cfg.maxPackets : ℚ) ≠ 0 := by
        have : (0 : ℚ) < (cfg.maxPackets : ℚ) := by exact_mod_cast hpos
        linarith
      show psr (receivedAt cfg sim k) cfg.maxPackets = _
      simp only [psr, divDouble, hne, if_false]
      rw [hq]
      rfl
    · intro hzero
      show psr (receivedAt cfg sim k) cfg.maxPackets = none
      simp [psr, divDouble, hzero]
    · intro hlt
      show LrWpanErrorDistanceCallback^[sim.indications k (recordAt cfg k)] 0 = _
      rw [callback_iterate]
      exact Nat.mod_eq_of_lt hlt
  · intro hinc hno hfuel
    rw [main_eq_stateAfter cfg sim hinc hno fuel hfuel]
    exact ⟨rfl, by simp [stateAfter]⟩

/-- C3 at one input: the small sweep on the lossless simulator ends with one dataset
entry per run. -/
theorem C3_rate_is_received_over_attempted_witness :
    0 ≤ smallConfig.maxPackets ∧
    (main smallConfig losslessSim 3).state.runs.length =
      (main smallConfig losslessSim 3).state.psrdataset.length ∧
    (main smallConfig losslessSim 3).finished = true :=
  ⟨by decide,
   (C3_rate_is_received_over_attempted smallConfig losslessSim 3 (by decide)).1,
   ((C3_rate_is_received_over_attempted smallConfig losslessSim 3 (by decide)).2.2
      (by decide) (by decide) (by decide)).1⟩

/-- C5: with `maxPackets > 0` and a simulator that fires the indication callback at
most once per request queued in the pass, every value added to the dataset, whatever
the number of passes made, is a number between 0 and 1.  With a positive increment,
no overflow of `j` and enough fuel the sweep ends with one value per expected
distance. -/
theorem C5_rate_within_unit_interval (cfg : SweepConfig) (sim : SimulatorModel)
    (fuel : Nat) (hmp : 0 < cfg.maxPackets)
    (hsim : ∀ (k : Nat) (r : RunRecord), sim.indications k r ≤ r.queue.length) :
    (∀ s ∈ (main cfg sim fuel).state.psrdataset, ∃ q : ℚ, s.2 = some q ∧ 0 ≤ q ∧ q ≤ 1) ∧
    (0 < cfg.increment → noOverflow cfg → expectedSamples cfg ≤ fuel →
      (main cfg sim fuel).finished = true ∧
      (main cfg sim fuel).state.psrdataset.length = expectedSamples cfg) := by
  refine ⟨?_, ?_⟩
  · obtain ⟨m, hm⟩ := main_reaches cfg sim fuel
    rw [hm]
    intro s hs
    simp only [stateAfter, List.mem_map, List.mem_range] at hs
    obtain ⟨k, _, rfl⟩ := hs
    have hden : (0 : ℚ) < 2 * (cfg.maxPackets : ℚ) := by
      have : (0 : ℚ) < (cfg.maxPackets : ℚ) := by exact_mod_cast hmp
      linarith
    have hlen : (recordAt cfg k).queue.length = 2 * cfg.maxPackets.toNat :=
      trialQueue_length cfg _
    have hcast : ((cfg.maxPackets.toNat : Nat) : Int) = cfg.maxPackets :=
      Int.toNat_of_nonneg (le_of_lt hmp)
    have hle : receivedAt cfg sim k ≤ 2 * cfg.maxPackets.toNat :=
      le_trans (callback_iterate_le _) (le_trans (hsim k (recordAt cfg k)) (le_of_eq hlen))
    have hleq : ((receivedAt cfg sim k : Nat) : ℚ) ≤ 2 * (cfg.maxPackets : ℚ) := by
      rw [← hcast]
      exact_mod_cast hle
    refine ⟨(receivedAt cfg sim k : ℚ) / (2 * (cfg.maxPackets : ℚ)), ?_, ?_, ?_⟩
    · simp [psr, divDouble, ne_of_gt hden]
    · exact div_nonneg (Nat.cast_nonneg _) (le_of_lt hden)
    · exact (div_le_one hden).mpr hleq
  · intro hinc hno hfuel
    rw [main_eq_stateAfter cfg sim hinc hno fuel hfuel]
    exact ⟨rfl, by simp [stateAfter]⟩

/-- C5 at one input: the small sweep on the lossless simulator. -/
theorem C5_rate_within_unit_interval_witness :
    0 < smallConfig.maxPackets ∧
    (∀ (k : Nat) (r : RunRecord), losslessSim.indications k r ≤ r.queue.length) ∧
    (∀ s ∈ (main smallConfig losslessSim 3).state.psrdataset,
      ∃ q : ℚ, s.2 = some q ∧ 0 ≤ q ∧ q ≤ 1) ∧
    (main smallConfig losslessSim 3).finished = true ∧
    (main smallConfig losslessSim 3).state.psrdataset.length = 3 :=
  ⟨by decide, fun _ _ => le_refl _,
   (C5_rate_within_unit_interval smallConfig losslessSim 3 (by decide)
      (fun _ _ => le_refl _)).1,
   ((C5_rate_within_unit_interval smallConfig losslessSim 3 (by decide)
      (fun _ _ => le_refl _)).2 (by decide) (by decide) (by decide)).1,
   ((C5_rate_within_unit_interval smallConfig losslessSim 3 (by decide)
      (fun _ _ => le_refl _)).2 (by decide) (by decide) (by decide)).2.trans (by decide)⟩

/-- C6: the receive counter is zero before the loop, the inner loop leaves it alone,
and every pass of the outer loop ends with it at zero; so, whatever the number of passes
made, every `Simulator::Run` of the sweep starts with the counter at zero, and the
count printed and used for the sample of a pass is the counter after the callbacks of
that pass alone, counted up from zero (the number of those callbacks as long as it
fits the 32-bit counter).  With a positive increment, no overflow of `j` and enough
fuel the sweep ends after one run per expected distance. -/
theorem C6_counter_zero_at_pass_start (cfg : SweepConfig) (sim : SimulatorModel)
    (fuel : Nat) :
    (initState cfg).g_packetsReceived = 0 ∧
    (∀ s : SweepState, (scheduleTrials cfg s).g_packetsReceived = s.g_packetsReceived) ∧
    (∀ (j : Int) (s : SweepState), (sweepBody cfg sim j s).g_packetsReceived = 0) ∧
    (main cfg sim fuel).state.g_packetsReceived = 0 ∧
    (main cfg sim fuel).state.runs.length = (main cfg sim fuel).state.cout.length ∧
    (main cfg sim fuel).state.cout.length = (main cfg sim fuel).state.psrdataset.length ∧
    (∀ (k : Nat) (r : RunRecord) (c : Int × Nat) (s : Int × Option ℚ),
      (main cfg sim fuel).state.runs[k]? = some r →
      (main cfg sim fuel).state.cout[k]? = some c →
      (main cfg sim fuel).state.psrdataset[k]? = some s →
      r.g_packetsReceived = 0 ∧
      c.2 = LrWpanErrorDistanceCallback^[sim.indications k r] 0 ∧
      s = (c.1, psr c.2 cfg.maxPackets) ∧
      (sim.indications k r < 2 ^ 32 → c.2 = sim.indications k r)) ∧
    (0 < cfg.increment → noOverflow cfg → expectedSamples cfg ≤ fuel →
      (main cfg sim fuel).finished = true ∧
      (main cfg sim fuel).state.runs.length = expectedSamples cfg) := by
  refine ⟨rfl, fun s => foldl_scheduleTrial_counter cfg _ s, fun _ _ => rfl, ?_⟩
  obtain ⟨m, hm⟩ := main_reaches cfg sim fuel
  refine ⟨by rw [hm]; rfl, by rw [hm]; simp [stateAfter], by rw [hm]; simp [stateAfter],
    ?_, ?_⟩
  · rw [hm]
    intro k r c s hr hc hs
    obtain ⟨hk, rfl⟩ := runs_getElem_stateAfter cfg sim _ k r hr
    simp only [stateAfter, List.getElem?_map, List.getElem?_range hk, Option.map_some',
      Option.some.injEq] at hc hs
    subst hc
    subst hs
    refine ⟨rfl, rfl, rfl, ?_⟩
    intro hlt
    show LrWpanErrorDistanceCallback^[sim.indications k (recordAt cfg k)] 0 = _
    rw [callback_iterate]
    exact Nat.mod_eq_of_lt hlt
  · intro hinc hno hfuel
    rw [main_eq_stateAfter cfg sim hinc hno fuel hfuel]
    exact ⟨rfl, by simp [stateAfter]⟩

/-- C6 at one input: the small sweep on the lossless simulator ends after three runs
with the counter at zero. -/
theorem C6_counter_zero_at_pass_start_witness :
    0 < smallConfig.increment ∧ noOverflow smallConfig ∧ expectedSamples smallConfig ≤ 3 ∧
    (main smallConfig losslessSim 3).state.g_packetsReceived = 0 ∧
    (main smallConfig losslessSim 3).finished = true ∧
    (main smallConfig losslessSim 3).state.runs.length = 3 :=
  ⟨by decide, by decide, by decide,
   (C6_counter_zero_at_pass_start smallConfig losslessSim 3).2.2.2.1,
   ((C6_counter_zero_at_pass_start smallConfig losslessSim 3).2.2.2.2.2.2.2
      (by decide) (by decide) (by decide)).1,
   ((C6_counter_zero_at_pass_start smallConfig losslessSim 3).2.2.2.2.2.2.2
      (by decide) (by decide) (by decide)).2.trans (by decide)⟩

/-- C7: in every pass the sweep makes and for every trial index `i` below `maxPackets`,
the queue holds at places `2 i` and `2 i + 1` the request on dev0 to `00:02` and the
request on dev2 to `00:04`, both with the delay of `i` milliseconds; the delay is not
negative, so the scheduled time `now + delay` is never before `now`, and it is strictly
smaller than the delay of every later trial.  With a positive increment, no overflow of
`j` and enough fuel the sweep ends after one run per expected distance. -/
theorem C7_trial_delays (cfg : SweepConfig) (sim : SimulatorModel) (fuel : Nat) :
    (∀ r ∈ (main cfg sim fuel).state.runs, r.queue.length = 2 * cfg.maxPackets.toNat ∧
      ∀ i : Nat, (i : Int) < cfg.maxPackets →
        ∃ a b : ScheduledRequest,
          r.queue[2 * i]? = some a ∧ r.queue[2 * i + 1]? = some b ∧
          a.device = 0 ∧ a.params.m_dstAddr = some (Mac16Address.ofString "00:02") ∧
          b.device = 2 ∧ b.params.m_dstAddr = some (Mac16Address.ofString "00:04") ∧
          a.delay = (i : ℚ) * (1 / 1000) ∧ b.delay = a.delay ∧ 0 ≤ a.delay ∧
          (∀ now : ℚ, causalityViolation now (now + a.delay) = false) ∧
          (∀ (i2 : Nat) (a2 b2 : ScheduledRequest), i < i2 →
            r.queue[2 * i2]? = some a2 → r.queue[2 * i2 + 1]? = some b2 →
            a.delay < a2.delay ∧ b.delay < b2.delay)) ∧
    (0 < cfg.increment → noOverflow cfg → expectedSamples cfg ≤ fuel →
      (main cfg sim fuel).finished = true ∧
      (main cfg sim fuel).state.runs.length = expectedSamples cfg) := by
  refine ⟨?_, ?_⟩
  · obtain ⟨m, hm⟩ := main_reaches cfg sim fuel
    rw [hm]
    intro r hr
    obtain ⟨k, _, rfl⟩ := mem_runs_stateAfter cfg sim _ r hr
    have hlen : (recordAt cfg k).queue.length = 2 * cfg.maxPackets.toNat :=
      trialQueue_length cfg _
    refine ⟨hlen, ?_⟩
    intro i hi
    have hin : i < cfg.maxPackets.toNat := by omega
    obtain ⟨ha, hb⟩ := trialQueue_getElem cfg cfg.maxPackets.toNat i hin
    have hnonneg : (0 : ℚ) ≤ (i : ℚ) * (1 / 1000) :=
      mul_nonneg (Nat.cast_nonneg i) (by norm_num)
    refine ⟨_, _, ha, hb, rfl, rfl, rfl, rfl, rfl, rfl, hnonneg, ?_, ?_⟩
    · intro now
      have h0 : (0 : ℚ) ≤ Seconds i := hnonneg
      simp only [causalityViolation, decide_eq_false_iff_not, not_lt]
      linarith
    · intro i2 a2 b2 hlt ha2 hb2
      have hi2 : i2 < cfg.maxPackets.toNat := by
        have hsome : 2 * i2 < (recordAt cfg k).queue.length := by
          by_contra hcon
          rw [List.getElem?_eq_none (by omega)] at ha2
          exact Option.noConfusion ha2
        omega
      obtain ⟨ha2c, hb2c⟩ := trialQueue_getElem cfg cfg.maxPackets.toNat i2 hi2
      have e1 : (recordAt cfg k).queue[2 * i2]? = _ := ha2c
      have e2 : (recordAt cfg k).queue[2 * i2 + 1]? = _ := hb2c
      rw [e1] at ha2
      rw [e2] at hb2
      simp only [Option.some.injEq] at ha2 hb2
      subst ha2
      subst hb2
      have hcast : (i : ℚ) < (i2 : ℚ) := by exact_mod_cast hlt
      have : Seconds i < Seconds i2 := by
        unfold Seconds
        linarith
      exact ⟨this, this⟩
  · intro hinc hno hfuel
    rw [main_eq_stateAfter cfg sim hinc hno fuel hfuel]
    exact ⟨rfl, by simp [stateAfter]⟩

/-- C7 at one input: the small sweep on the lossless simulator ends after three runs
and queues four requests in every pass. -/
theorem C7_trial_delays_witness :
    0 < smallConfig.increment ∧ noOverflow smallConfig ∧ expectedSamples smallConfig ≤ 3 ∧
    (∀ r ∈ (main smallConfig losslessSim 3).state.runs, r.queue.length = 4) ∧
    (main smallConfig losslessSim 3).finished = true ∧
    (main smallConfig losslessSim 3).state.runs.length = 3 :=
  ⟨by decide, by decide, by decide,
   fun r hr => ((C7_trial_delays smallConfig losslessSim 3).1 r hr).1.trans (by decide),
   ((C7_trial_delays smallConfig losslessSim 3).2 (by decide) (by decide) (by decide)).1,
   ((C7_trial_delays smallConfig losslessSim 3).2 (by decide) (by decide)
      (by decide)).2.trans (by decide)⟩

end LrWpan
